import Mathlib

/-!
Shallow embedding of `src/api.py` (a small Flask event-ingestion service).

Python dicts holding event records are modelled as association lists of
string fields (`Record`); extra caller-supplied fields are arbitrary
further entries.  The server clock (`datetime.now().isoformat()`) is an
explicit `now : String` parameter.  Persistence is modelled at the
snapshot-interface level (load-at-start / save-after-mutation), as the
spec scopes the on-disk format out of the core.  Python `set`/`dict`
iteration orders are modelled with `List.dedup`; a Python `set` has no
specified order, and the `user_counts` dict order only matters for the
most-active-user tie-break, which the spec leaves undefined.
-/

/-- An event record: a Python dict with string keys and string values,
kept as an ordered association list (first binding of a key wins). -/
abbrev Record := List (String × String)

/-- `k in d` for a Python dict `d`. -/
def hasField (e : Record) (k : String) : Bool :=
  e.any (fun p => p.1 == k)

/-- `d[k]` as an `Option` (`none` when the key is absent). -/
def getField (e : Record) (k : String) : Option String :=
  (e.find? (fun p => p.1 == k)).map Prod.snd

/-- `d[k]` on a record known to carry `k` (defaults to `""` otherwise;
stored records always carry the required keys, see the invariants). -/
def fieldD (e : Record) (k : String) : String :=
  (getField e k).getD ""

/-- `d[k] = v`: replace the value of an existing key in place, else
append the new binding at the end (Python dict update semantics). -/
def setField (e : Record) (k v : String) : Record :=
  if hasField e k then e.map (fun p => if p.1 == k then (k, v) else p)
  else e ++ [(k, v)]

/-- The three required keys checked at ingestion (api.py lines 106, 112). -/
def required_fields : List String :=
  ["user_id", "event_type", "event_timestamp"]

/-- `all(key in event for key in [...])` (api.py lines 106, 112). -/
def has_required_fields (e : Record) : Bool :=
  required_fields.all (fun k => hasField e k)

/-- `event['added_at'] = datetime.now().isoformat()` (api.py lines 107, 113). -/
def stampAddedAt (now : String) (e : Record) : Record :=
  setField e "added_at" now

/-- Split a character list at every separator character, keeping empty
pieces, as Python `str.split(sep)` does. -/
def splitPred (p : Char → Bool) : List Char → List (List Char)
  | [] => [[]]
  | c :: rest =>
      let r := splitPred p rest
      if p c then [] :: r
      else
        match r with
        | g :: gs => (c :: g) :: gs
        | [] => [[c]]

/-- Python `str.strip()`: drop whitespace from both ends. -/
def pyStrip (s : String) : String :=
  String.mk (((s.toList.dropWhile Char.isWhitespace).reverse.dropWhile
    Char.isWhitespace).reverse)

/-- Python `str.split()` with no separator: split on whitespace,
dropping empty pieces. -/
def pySplitWs (s : String) : List String :=
  ((splitPred Char.isWhitespace s.toList).map String.mk).filter
    (fun t => !(t == ""))

/-- Python `str.split('\n')`: split on each newline, keeping empty
pieces. -/
def pySplitLines (s : String) : List String :=
  (splitPred (fun c => c == '\n') s.toList).map String.mk

/-- `parse_csv_line` (api.py lines 31-41): strip and whitespace-split the
line; with at least 3 tokens build a record from the first three plus a
stamped `added_at`, otherwise return `None`. -/
def parse_csv_line (now line : String) : Option Record :=
  match pySplitWs (pyStrip line) with
  | a :: b :: c :: _ =>
      some [("user_id", a), ("event_type", b), ("event_timestamp", c),
            ("added_at", now)]
  | _ => none

/-- The per-line body of the text branch (api.py lines 125-130): a blank
line is skipped, otherwise `parse_csv_line` decides. -/
def lineToRecord (now line : String) : Option Record :=
  if !(pyStrip line == "") then parse_csv_line now line else none

/-- The JSON body of a request, when it parses: `request.get_json()`
yields either a list of objects or a single object (api.py line 100). -/
inductive JsonData where
  | arr (objs : List Record)
  | obj (o : Record)
deriving DecidableEq

/-- An incoming POST request: its declared Content-Type header, its raw
text body, and its body parsed as JSON when that succeeds. -/
structure Req where
  content_type : String
  body_text : String
  body_json : Option JsonData
deriving DecidableEq

/-- Outcome of `add_events`: HTTP 201 with the accepted records and the
new total, or one of the error responses (api.py lines 117, 133, 145). -/
inductive IngestResult where
  | ok (events_added : List Record) (total_events : Nat)
  | missingFields
  | unsupportedType
  | serverError
deriving DecidableEq

/-- `add_events` (api.py lines 92-145) without the trailing `save_data`
call: returns the updated `events_data` and the response.  The error
returns at lines 117 and 133 happen before any mutation, so those
branches return the store unchanged. -/
def add_events (now : String) (events_data : List Record) (r : Req) :
    List Record × IngestResult :=
  if r.content_type == "application/json" then
    match r.body_json with
    | some (.arr objs) =>
        let new_events :=
          (objs.filter has_required_fields).map (stampAddedAt now)
        (events_data ++ new_events,
         .ok new_events (events_data.length + new_events.length))
    | some (.obj o) =>
        if has_required_fields o then
          let d := stampAddedAt now o
          (events_data ++ [d], .ok [d] (events_data.length + 1))
        else
          (events_data, .missingFields)
    | none => (events_data, .serverError)
  else if r.content_type == "text/plain" then
    let lines := pySplitLines (pyStrip r.body_text)
    let new_events := lines.filterMap (lineToRecord now)
    (events_data ++ new_events,
     .ok new_events (events_data.length + new_events.length))
  else
    (events_data, .unsupportedType)

/-- The persisted snapshot file: absent, unparseable, or a saved
sequence of records (the format itself is out of the core's scope). -/
inductive FileState where
  | missing
  | corrupt
  | saved (records : List Record)
deriving DecidableEq

/-- `load_data` (api.py lines 16-24): a missing file leaves the store as
is, a corrupt file yields the empty store, a saved snapshot replaces the
store with its records. -/
def load_data (file : FileState) (events_data : List Record) : List Record :=
  match file with
  | .missing => events_data
  | .corrupt => []
  | .saved rs => rs

/-- `save_data` (api.py lines 26-29): write the current store as the
snapshot. -/
def save_data (events_data : List Record) : FileState :=
  .saved events_data

/-- The whole system: the in-memory store and the snapshot file. -/
structure SysState where
  events_data : List Record
  file : FileState
deriving DecidableEq

/-- One POST /events call on the system: run `add_events`, then
`save_data` (api.py line 136) exactly when no error return fired. -/
def handle_post (now : String) (st : SysState) (r : Req) :
    SysState × IngestResult :=
  match add_events now st.events_data r with
  | (s, .ok evs tot) => (⟨s, save_data s⟩, .ok evs tot)
  | (s, res) => (⟨s, st.file⟩, res)

/-- Truthiness of `request.args.get(...)`: `None` and the empty string
are falsy (api.py lines 70, 73). -/
def truthy : Option String → Bool
  | none => false
  | some s => !(s == "")

/-- `get_all_events` (api.py lines 62-80): apply the `user_id` filter
when truthy, then the `event_type` filter when truthy; return the
events, their count, and the store's total. -/
def get_all_events (events_data : List Record)
    (user_id event_type : Option String) : List Record × Nat × Nat :=
  let fe1 :=
    if truthy user_id then
      events_data.filter (fun e => fieldD e "user_id" == user_id.getD "")
    else events_data
  let fe2 :=
    if truthy event_type then
      fe1.filter (fun e => fieldD e "event_type" == event_type.getD "")
    else fe1
  (fe2, fe2.length, events_data.length)

/-- `get_event_types` (api.py lines 166-180): the distinct event types,
their number, and per type the count of records of that type. -/
def get_event_types (events_data : List Record) :
    List String × Nat × List (String × Nat) :=
  let event_types := (events_data.map (fun e => fieldD e "event_type")).dedup
  let type_counts := event_types.map (fun t =>
    (t, (events_data.filter (fun e => fieldD e "event_type" == t)).length))
  (event_types, event_types.length, type_counts)

/-- One comparison step of Python `max(..., key=lambda x: x[1])`: a
strictly greater key replaces the current best, so the first maximal
element wins ties. -/
def pickMax (best y : String × Nat) : String × Nat :=
  if best.2 < y.2 then y else best

/-- `max(user_counts.items(), key=lambda x: x[1])` (api.py line 209). -/
def maxBySnd : List (String × Nat) → Option (String × Nat)
  | [] => none
  | x :: xs => some (xs.foldl pickMax x)

/-- The /stats response (api.py lines 190-219). -/
structure Stats where
  total_events : Nat
  unique_users : Nat
  event_types : List String
  most_active_user : Option (String × Nat)
deriving DecidableEq

/-- `get_stats` (api.py lines 190-219): zeros on the empty store;
otherwise the totals plus the user with the maximal record count. -/
def get_stats (events_data : List Record) : Stats :=
  if events_data.isEmpty then
    ⟨0, 0, [], none⟩
  else
    let user_ids := events_data.map (fun e => fieldD e "user_id")
    let unique_users := user_ids.dedup.length
    let event_types := (events_data.map (fun e => fieldD e "event_type")).dedup
    let user_counts := user_ids.dedup.map (fun u => (u, user_ids.count u))
    ⟨events_data.length, unique_users, event_types, maxBySnd user_counts⟩

/-- The operations that touch the store: a POST /events submission, the
DELETE /events clear (api.py lines 182-188), a `load_data` call, and the
external events of the snapshot file disappearing or getting corrupted. -/
inductive Op where
  | post (now : String) (r : Req)
  | clear_events
  | reload
  | fileLost
  | fileCorrupted

/-- One system step. -/
def step (st : SysState) : Op → SysState
  | .post now r => (handle_post now st r).1
  | .clear_events => ⟨[], save_data []⟩
  | .reload => ⟨load_data st.file st.events_data, st.file⟩
  | .fileLost => ⟨st.events_data, .missing⟩
  | .fileCorrupted => ⟨st.events_data, .corrupt⟩

/-- Run a sequence of operations. -/
def run (ops : List Op) (st : SysState) : SysState :=
  ops.foldl step st

/-- A record as ingestion leaves it: all three required keys present
(checked by key presence) plus a stamped `added_at`. -/
def wellFormedRecord (e : Record) : Bool :=
  has_required_fields e && hasField e "added_at"

/-- The combined predicate `get_all_events` effectively filters by: an
equality test on `user_id` when that filter is truthy, conjoined with an
equality test on `event_type` when that filter is truthy. -/
def matchesFilters (user_id event_type : Option String) (e : Record) : Bool :=
  (if truthy user_id then fieldD e "user_id" == user_id.getD "" else true) &&
  (if truthy event_type then fieldD e "event_type" == event_type.getD ""
   else true)

/-- Every record of a store is as ingestion leaves it. -/
def goodStore (l : List Record) : Prop :=
  ∀ e ∈ l, wellFormedRecord e = true

/-- System invariant: the store and any saved snapshot hold only
well-formed records. -/
def sysInv (st : SysState) : Prop :=
  goodStore st.events_data ∧
  ∀ rs, st.file = .saved rs → goodStore rs

/-! ## Helper lemmas -/

theorem hasField_setField_self (e : Record) (k v : String) :
    hasField (setField e k v) k = true := by
  unfold setField
  split
  · rename_i h
    unfold hasField at h ⊢
    simp only [List.any_map, List.any_eq_true, Function.comp] at h ⊢
    obtain ⟨p, hp, hpk⟩ := h
    exact ⟨p, hp, by simp [hpk]⟩
  · unfold hasField
    simp

theorem hasField_setField_of (e : Record) (k k' v : String)
    (h : hasField e k = true) : hasField (setField e k' v) k = true := by
  unfold setField
  split
  · unfold hasField at h ⊢
    simp only [List.any_map, List.any_eq_true, Function.comp] at h ⊢
    obtain ⟨p, hp, hpk⟩ := h
    refine ⟨p, hp, ?_⟩
    by_cases hk : (p.1 == k') = true
    · have h1 : p.1 = k := by simpa using hpk
      have h2 : p.1 = k' := by simpa using hk
      simp [hk, ← h1, h2]
    · simp [hk, hpk]
  · unfold hasField at h ⊢
    simp [h]

theorem wellFormed_stamp (now : String) (e : Record)
    (h : has_required_fields e = true) :
    wellFormedRecord (stampAddedAt now e) = true := by
  unfold has_required_fields at h
  simp only [List.all_eq_true] at h
  unfold wellFormedRecord has_required_fields
  simp only [List.all_eq_true, Bool.and_eq_true]
  exact ⟨fun k hmem => hasField_setField_of _ _ _ _ (h k hmem),
    hasField_setField_self _ _ _⟩

theorem wellFormed_parse (now line : String) (e : Record)
    (h : parse_csv_line now line = some e) : wellFormedRecord e = true := by
  unfold parse_csv_line at h
  split at h
  · cases h
    rfl
  · cases h

theorem wellFormed_lineToRecord (now line : String) (e : Record)
    (h : lineToRecord now line = some e) : wellFormedRecord e = true := by
  unfold lineToRecord at h
  split at h
  · exact wellFormed_parse now line e h
  · cases h

theorem add_events_preserves_good (now : String) (s : List Record) (r : Req)
    (h : goodStore s) : goodStore (add_events now s r).1 := by
  unfold add_events
  split
  · split
    · intro e he
      simp only [List.mem_append, List.mem_map, List.mem_filter] at he
      rcases he with he | ⟨e', ⟨_, hwf⟩, rfl⟩
      · exact h e he
      · exact wellFormed_stamp now e' hwf
    · split
      · rename_i hwf
        intro e he
        simp only [List.mem_append, List.mem_singleton] at he
        rcases he with he | rfl
        · exact h e he
        · exact wellFormed_stamp now _ hwf
      · exact h
    · exact h
  · split
    · intro e he
      simp only [List.mem_append, List.mem_filterMap] at he
      rcases he with he | ⟨line, _, hline⟩
      · exact h e he
      · exact wellFormed_lineToRecord now line e hline
    · exact h

theorem add_events_error_fst (now : String) (s : List Record) (r : Req)
    (h : (add_events now s r).2 = .missingFields ∨
         (add_events now s r).2 = .unsupportedType ∨
         (add_events now s r).2 = .serverError) :
    (add_events now s r).1 = s := by
  unfold add_events at h ⊢
  split at h
  · split at h
    · simp at h
    · split at h
      · simp at h
      · simp_all
    · simp_all
  · split at h
    · simp at h
    · simp_all

theorem handle_post_preserves_inv (now : String) (st : SysState) (r : Req)
    (h : sysInv st) : sysInv (handle_post now st r).1 := by
  unfold handle_post
  split
  · rename_i s evs tot heq
    have hs : s = (add_events now st.events_data r).1 := by rw [heq]
    have hgood : goodStore s := by
      rw [hs]; exact add_events_preserves_good now st.events_data r h.1
    exact ⟨hgood, fun rs hrs => by
      cases hrs
      exact hgood⟩
  · rename_i s res hnc heq
    have hs : s = (add_events now st.events_data r).1 := by rw [heq]
    have hgood : goodStore s := by
      rw [hs]; exact add_events_preserves_good now st.events_data r h.1
    exact ⟨hgood, h.2⟩

theorem step_preserves_inv (st : SysState) (op : Op) (h : sysInv st) :
    sysInv (step st op) := by
  cases op with
  | post now r => exact handle_post_preserves_inv now st r h
  | clear_events =>
      refine ⟨fun e he => absurd he (List.not_mem_nil e), fun rs hrs => ?_⟩
      cases hrs
      exact fun e he => absurd he (List.not_mem_nil e)
  | reload =>
      refine ⟨?_, h.2⟩
      unfold step load_data
      cases hf : st.file with
      | missing => exact h.1
      | corrupt => exact fun e he => absurd he (List.not_mem_nil e)
      | saved rs => exact h.2 rs hf
  | fileLost => exact ⟨h.1, fun rs hrs => by cases hrs⟩
  | fileCorrupted => exact ⟨h.1, fun rs hrs => by cases hrs⟩

theorem run_preserves_inv (ops : List Op) (st : SysState) (h : sysInv st) :
    sysInv (run ops st) := by
  induction ops generalizing st with
  | nil => exact h
  | cons op ops ih => exact ih (step st op) (step_preserves_inv st op h)

/-! ## Claim theorems -/

/-- C1 counterexample: the claim requires every stored record to have
non-empty required fields, but a single structured submission whose
`user_id` is the empty string passes the key-presence check and is
appended: after ingesting it into the empty store, the store holds a
record whose `user_id` is `""`. -/
theorem c1_counterexample :
    (add_events "T" [] ⟨"application/json", "",
      some (.obj [("user_id", ""), ("event_type", "click"),
        ("event_timestamp", "ts")])⟩).1 =
      [[("user_id", ""), ("event_type", "click"), ("event_timestamp", "ts"),
        ("added_at", "T")]] ∧
    fieldD [("user_id", ""), ("event_type", "click"),
      ("event_timestamp", "ts"), ("added_at", "T")] "user_id" = "" := by
  constructor
  · rfl
  · rfl

/-- C1 (amended): a record is present in the store exactly when it
passed the key-presence validation at ingestion time (all three
required keys present; values, including empty strings, are not
checked).  After any sequence of load, ingest and clear operations from
a fresh start, every stored record carries the three required keys plus
`added_at`; and a structured batch appends exactly the elements that
pass the key-presence check. -/
theorem c1_store_records_pass_key_validation :
    (∀ ops : List Op,
      ((run ops ⟨[], .missing⟩).events_data.all wellFormedRecord) = true) ∧
    (∀ (now : String) (store objs : List Record) (bt : String),
      (add_events now store ⟨"application/json", bt, some (.arr objs)⟩).1 =
        store ++ (objs.filter has_required_fields).map (stampAddedAt now)) := by
  constructor
  · intro ops
    have h0 : sysInv ⟨[], .missing⟩ :=
      ⟨fun e he => absurd he (List.not_mem_nil e), fun rs hrs => by cases hrs⟩
    have h := run_preserves_inv ops ⟨[], .missing⟩ h0
    simpa [List.all_eq_true] using h.1
  · intro now store objs bt
    rfl

/-- C2: a structured batch appends exactly the elements carrying all
three required keys, each stamped with `added_at`; the accepted count
equals the number of well-formed elements; a single structured object
missing a required key is rejected whole with a missing-required-fields
error and nothing is appended. -/
theorem c2_structured_submissions :
    (∀ (now : String) (store objs : List Record) (bt : String),
      add_events now store ⟨"application/json", bt, some (.arr objs)⟩ =
        (store ++ (objs.filter has_required_fields).map (stampAddedAt now),
         .ok ((objs.filter has_required_fields).map (stampAddedAt now))
           (store.length +
             ((objs.filter has_required_fields).map (stampAddedAt now)).length))
      ∧
      ((objs.filter has_required_fields).map (stampAddedAt now)).length =
        (objs.filter has_required_fields).length) ∧
    (∀ (now : String) (store : List Record) (o : Record) (bt : String),
      has_required_fields o = false →
      add_events now store ⟨"application/json", bt, some (.obj o)⟩ =
        (store, .missingFields)) := by
  constructor
  · intro now store objs bt
    exact ⟨rfl, List.length_map _ _⟩
  · intro now store o bt h
    simp [add_events, h]

/-- C2 witness: the batch `[ok-object, {"event_type": "view"}]` appends
exactly the first element, and the lone malformed single object is
rejected with the store untouched. -/
theorem c2_structured_submissions_witness :
    add_events "T" [] ⟨"application/json", "",
      some (.obj [("event_type", "view")])⟩ = ([], .missingFields) :=
  c2_structured_submissions.2 "T" [] [("event_type", "view")] "" (by decide)

/-- C7: saving a snapshot of any ordered sequence of records (extra
fields included, since a `Record` is an open field list) and loading it
back reproduces the identical sequence, whatever the store held
before. -/
theorem c7_snapshot_roundtrip (records prev : List Record) :
    load_data (save_data records) prev = records := rfl

/-- C8: a submission whose declared content kind is neither
`application/json` nor `text/plain` is rejected with the
unsupported-content-type error and the store is left unchanged (zero
records accepted). -/
theorem c8_unsupported_content_type (now : String) (store : List Record)
    (r : Req) (h1 : r.content_type ≠ "application/json")
    (h2 : r.content_type ≠ "text/plain") :
    add_events now store r = (store, .unsupportedType) := by
  simp [add_events, h1, h2]

/-- C8 witness: a `text/csv` submission is rejected as unsupported. -/
theorem c8_unsupported_content_type_witness :
    add_events "T" [] ⟨"text/csv", "a b c", none⟩ = ([], .unsupportedType) :=
  c8_unsupported_content_type "T" [] ⟨"text/csv", "a b c", none⟩
    (by decide) (by decide)

/-- C9: when a POST returns the missing-required-fields or the
unsupported-content-type error, the whole system state (store and
snapshot file) is exactly as before the call: the error paths return
before any append and before the save step. -/
theorem c9_error_paths_leave_system_unchanged (now : String) (st : SysState)
    (r : Req)
    (h : (handle_post now st r).2 = .missingFields ∨
         (handle_post now st r).2 = .unsupportedType) :
    (handle_post now st r).1 = st := by
  have hs := add_events_error_fst now st.events_data r
  unfold handle_post at h ⊢
  cases heq : add_events now st.events_data r with
  | mk s res =>
    rw [heq] at h hs
    cases res with
    | ok evs tot => simp at h
    | missingFields =>
        have hse : s = st.events_data := hs (Or.inl rfl)
        simp only []
        rw [hse]
    | unsupportedType =>
        have hse : s = st.events_data := hs (Or.inr (Or.inl rfl))
        simp only []
        rw [hse]
    | serverError => simp at h

/-- C9 witness: an unsupported-content-type POST on a concrete system
state leaves both the store and the snapshot file untouched. -/
theorem c9_error_paths_witness :
    (handle_post "T"
      ⟨[[("user_id", "u"), ("event_type", "e"), ("event_timestamp", "t"),
          ("added_at", "s")]], .missing⟩
      ⟨"text/csv", "x", none⟩).1 =
      ⟨[[("user_id", "u"), ("event_type", "e"), ("event_timestamp", "t"),
          ("added_at", "s")]], .missing⟩ :=
  c9_error_paths_leave_system_unchanged "T"
    ⟨[[("user_id", "u"), ("event_type", "e"), ("event_timestamp", "t"),
        ("added_at", "s")]], .missing⟩
    ⟨"text/csv", "x", none⟩ (Or.inr (by decide))

/-- C10: an empty-string `user_id` or `event_type` filter is treated
exactly like an absent filter (the truthiness check skips it), so the
full store is returned and empty-string values cannot be selected
for. -/
theorem c10_empty_string_filter_is_skipped :
    (∀ (store : List Record) (t : Option String),
      get_all_events store (some "") t = get_all_events store none t) ∧
    (∀ (store : List Record) (u : Option String),
      get_all_events store u (some "") = get_all_events store u none) ∧
    (∀ store : List Record,
      (get_all_events store (some "") (some "")).1 = store) := by
  refine ⟨fun store t => rfl, fun store u => ?_, fun store => rfl⟩
  unfold get_all_events
  rfl

/-- C3: a blank line produces no record; a line with fewer than 3
whitespace-separated tokens produces no record; a line with at least 3
tokens produces exactly the record whose `user_id`, `event_type`,
`event_timestamp` are the first three tokens in order (tokens beyond
the third ignored) plus the server-stamped `added_at`. -/
theorem c3_line_oriented_parsing (now line : String) :
    (pyStrip line = "" → lineToRecord now line = none) ∧
    ((pySplitWs (pyStrip line)).length < 3 → lineToRecord now line = none) ∧
    (∀ a b c, (pySplitWs (pyStrip line)).take 3 = [a, b, c] →
      lineToRecord now line =
        some [("user_id", a), ("event_type", b), ("event_timestamp", c),
              ("added_at", now)]) := by
  refine ⟨?_, ?_, ?_⟩
  · intro h
    simp [lineToRecord, h]
  · intro h
    unfold lineToRecord
    split
    · unfold parse_csv_line
      split
      · rename_i a b c tail heq
        rw [heq] at h
        simp only [List.length_cons] at h
        omega
      · rfl
    · rfl
  · intro a b c h
    have hsplit : ∃ tail, pySplitWs (pyStrip line) = a :: b :: c :: tail := by
      rcases hl : pySplitWs (pyStrip line) with _ | ⟨x, _ | ⟨y, _ | ⟨z, tl⟩⟩⟩ <;>
        rw [hl] at h <;> simp_all [List.take]
    obtain ⟨tail, hsplit⟩ := hsplit
    have hne : ¬(pyStrip line = "") := by
      intro hemp
      rw [hemp] at hsplit
      have : pySplitWs "" = [] := rfl
      rw [this] at hsplit
      cases hsplit
    unfold lineToRecord
    rw [if_pos (by simpa using hne)]
    unfold parse_csv_line
    rw [hsplit]

/-- C3 witness: a blank line and a 1-token line yield no record; the
line `"u2 login 2024-01-02"` yields exactly the record built from its
three tokens. -/
theorem c3_line_oriented_parsing_witness :
    lineToRecord "T" "   " = none ∧
    lineToRecord "T" "badline" = none ∧
    lineToRecord "T" " u2  login 2024-01-02 extra" =
      some [("user_id", "u2"), ("event_type", "login"),
            ("event_timestamp", "2024-01-02"), ("added_at", "T")] :=
  ⟨(c3_line_oriented_parsing "T" "   ").1 (by decide),
   (c3_line_oriented_parsing "T" "badline").2.1 (by decide),
   (c3_line_oriented_parsing "T" " u2  login 2024-01-02 extra").2.2
     "u2" "login" "2024-01-02" (by decide)⟩

/-- C4 counterexample: with the `user_id` filter given as the empty
string, the query returns the whole store, including a record whose
`user_id` ("alice") does not equal the given filter value — so the
result is not the subsequence of records whose `user_id` equals the
given `userId`. -/
theorem c4_counterexample :
    (get_all_events
      [[("user_id", "alice"), ("event_type", "click"),
        ("event_timestamp", "t1"), ("added_at", "s")]] (some "") none).1 =
      [[("user_id", "alice"), ("event_type", "click"),
        ("event_timestamp", "t1"), ("added_at", "s")]] ∧
    fieldD [("user_id", "alice"), ("event_type", "click"),
      ("event_timestamp", "t1"), ("added_at", "s")] "user_id" ≠ "" := by
  constructor
  · rfl
  · decide

/-- C4 (amended): for every store and every combination of optional
filters, the query returns exactly the subsequence of stored records
matching the given-and-non-empty filters by exact equality (an
empty-string filter is skipped like an absent one), in the store's
insertion order, and the empty sequence when nothing matches. -/
theorem c4_filtered_query (store : List Record) (u t : Option String) :
    (get_all_events store u t).1 = store.filter (matchesFilters u t) ∧
    (get_all_events store u t).1.Sublist store ∧
    ((∀ e ∈ store, matchesFilters u t e = false) →
      (get_all_events store u t).1 = []) := by
  have hfil : (get_all_events store u t).1 =
      store.filter (matchesFilters u t) := by
    unfold get_all_events matchesFilters
    by_cases hu : truthy u <;> by_cases ht : truthy t <;>
      simp [hu, ht, List.filter_filter, Bool.and_comm]
  refine ⟨hfil, ?_, ?_⟩
  · rw [hfil]
    exact List.filter_sublist store
  · intro hnone
    rw [hfil]
    exact List.filter_eq_nil_iff.mpr (fun e he => by simp [hnone e he])

/-- C4 witness: querying a one-record store for a different user yields
the empty sequence. -/
theorem c4_filtered_query_witness :
    (get_all_events
      [[("user_id", "alice"), ("event_type", "click"),
        ("event_timestamp", "t1"), ("added_at", "s")]]
      (some "bob") none).1 = [] :=
  (c4_filtered_query
    [[("user_id", "alice"), ("event_type", "click"),
      ("event_timestamp", "t1"), ("added_at", "s")]]
    (some "bob") none).2.2 (by decide)

theorem foldl_pickMax_mem (xs : List (String × Nat)) (x : String × Nat) :
    xs.foldl pickMax x ∈ x :: xs := by
  induction xs generalizing x with
  | nil => simp
  | cons a t ih =>
      have h := ih (pickMax x a)
      simp only [List.foldl_cons]
      by_cases hx : x.2 < a.2
      · have hpa : pickMax x a = a := by simp [pickMax, hx]
        rw [hpa] at h ⊢
        exact List.mem_cons_of_mem x h
      · have hpa : pickMax x a = x := by simp [pickMax, hx]
        rw [hpa] at h ⊢
        rcases List.mem_cons.mp h with h' | h'
        · exact List.mem_cons.mpr (Or.inl h')
        · exact List.mem_cons_of_mem _ (List.mem_cons_of_mem _ h')

theorem foldl_pickMax_ge (xs : List (String × Nat)) (x : String × Nat) :
    ∀ y ∈ x :: xs, y.2 ≤ (xs.foldl pickMax x).2 := by
  induction xs generalizing x with
  | nil =>
      intro y hy
      simp at hy
      simp [hy]
  | cons a t ih =>
      intro y hy
      simp only [List.foldl_cons]
      have hge := ih (pickMax x a)
      have hx2 : x.2 ≤ (pickMax x a).2 := by
        unfold pickMax
        split <;> omega
      have ha2 : a.2 ≤ (pickMax x a).2 := by
        unfold pickMax
        split <;> omega
      have hseed : (pickMax x a).2 ≤ (t.foldl pickMax (pickMax x a)).2 :=
        hge (pickMax x a) (List.mem_cons_self _ _)
      rcases List.mem_cons.mp hy with rfl | hy'
      · exact le_trans hx2 hseed
      · rcases List.mem_cons.mp hy' with rfl | hy''
        · exact le_trans ha2 hseed
        · exact hge y (List.mem_cons_of_mem _ hy'')

theorem maxBySnd_spec (l : List (String × Nat)) (h : l ≠ []) :
    ∃ m, maxBySnd l = some m ∧ m ∈ l ∧ ∀ y ∈ l, y.2 ≤ m.2 := by
  match l with
  | [] => exact absurd rfl h
  | x :: xs =>
      exact ⟨xs.foldl pickMax x, rfl, foldl_pickMax_mem xs x,
        foldl_pickMax_ge xs x⟩

/-- C5: on the empty store the stats are all zero with no most-active
user; on any non-empty store in which one user has a strictly greater
record count than every other user, the stats name that user as most
active together with its record count. -/
theorem c5_compute_stats :
    get_stats [] = ⟨0, 0, [], none⟩ ∧
    (∀ (store : List Record) (u : String), store ≠ [] →
      u ∈ store.map (fun e => fieldD e "user_id") →
      (∀ v ∈ store.map (fun e => fieldD e "user_id"), v ≠ u →
        (store.map (fun e => fieldD e "user_id")).count v <
          (store.map (fun e => fieldD e "user_id")).count u) →
      (get_stats store).most_active_user =
        some (u, (store.map (fun e => fieldD e "user_id")).count u)) := by
  constructor
  · rfl
  · intro store u hne hu hmax
    obtain ⟨hd, tl, rfl⟩ := List.exists_cons_of_ne_nil hne
    set L := (hd :: tl).map (fun e => fieldD e "user_id") with hL
    have hstats : (get_stats (hd :: tl)).most_active_user =
        maxBySnd (L.dedup.map (fun w => (w, L.count w))) := rfl
    have hudedup : u ∈ L.dedup := List.mem_dedup.mpr hu
    have hcne : L.dedup.map (fun w => (w, L.count w)) ≠ [] := by
      intro hnil
      rw [List.map_eq_nil_iff] at hnil
      rw [hnil] at hudedup
      exact absurd hudedup (List.not_mem_nil u)
    obtain ⟨m, hmeq, hmem, hge⟩ := maxBySnd_spec _ hcne
    rw [hstats, hmeq]
    obtain ⟨v, hvdedup, rfl⟩ := List.mem_map.mp hmem
    have huin : (u, L.count u) ∈ L.dedup.map (fun w => (w, L.count w)) :=
      List.mem_map.mpr ⟨u, hudedup, rfl⟩
    have hle : L.count u ≤ L.count v := hge (u, L.count u) huin
    by_cases hvu : v = u
    · subst hvu
      rfl
    · have hvL : v ∈ L := List.mem_dedup.mp hvdedup
      have hlt := hmax v hvL hvu
      exact absurd (lt_of_lt_of_le hlt hle) (lt_irrefl _)

/-- C5 witness: with two "alice" events and one "bob" event, the stats
report "alice" with count 2 as the most active user, and the empty
store reports all-zero stats. -/
theorem c5_compute_stats_witness :
    (get_stats
      [[("user_id", "alice"), ("event_type", "click"),
        ("event_timestamp", "t1"), ("added_at", "s")],
       [("user_id", "bob"), ("event_type", "view"),
        ("event_timestamp", "t2"), ("added_at", "s")],
       [("user_id", "alice"), ("event_type", "view"),
        ("event_timestamp", "t3"), ("added_at", "s")]]).most_active_user =
      some ("alice", 2) := by
  have h := c5_compute_stats.2
    [[("user_id", "alice"), ("event_type", "click"),
      ("event_timestamp", "t1"), ("added_at", "s")],
     [("user_id", "bob"), ("event_type", "view"),
      ("event_timestamp", "t2"), ("added_at", "s")],
     [("user_id", "alice"), ("event_type", "view"),
      ("event_timestamp", "t3"), ("added_at", "s")]]
    "alice" (by decide) (by decide) (by decide)
  exact h

theorem length_filter_field_eq (l : List Record) (k t : String) :
    (l.filter (fun e => fieldD e k == t)).length =
      (l.map (fun e => fieldD e k)).count t := by
  induction l with
  | nil => rfl
  | cons a l ih =>
      simp only [List.filter_cons, List.map_cons, List.count_cons]
      by_cases h : fieldD a k == t
      · have ht : fieldD a k = t := by simpa using h
        simp [h, ht, ih]
      · have ht : ¬(fieldD a k = t) := by simpa using h
        simp [h, ht, ih]

/-- C6: the per-type counts returned by the event-types listing sum to
the total number of records in the store, and the listed types are
exactly the distinct `event_type` values occurring in the store. -/
theorem c6_event_type_counts (store : List Record) :
    ((get_event_types store).2.2.map Prod.snd).sum = store.length ∧
    (∀ ty, ty ∈ (get_event_types store).1 ↔
      ty ∈ store.map (fun e => fieldD e "event_type")) := by
  constructor
  · unfold get_event_types
    simp only [List.map_map]
    have hmap : ((store.map (fun e => fieldD e "event_type")).dedup.map
        (Prod.snd ∘ fun ty =>
          (ty, (store.filter (fun e => fieldD e "event_type" == ty)).length)))
        = ((store.map (fun e => fieldD e "event_type")).dedup.map
        (fun ty => (store.map (fun e => fieldD e "event_type")).count ty)) := by
      apply List.map_congr_left
      intro ty _
      exact length_filter_field_eq store "event_type" ty
    rw [hmap, List.sum_map_count_dedup_eq_length, List.length_map]
  · intro ty
    exact List.mem_dedup
